import Mathlib

/-!
Verification of the goofy-animals name generator (`src/src/lib.rs`).

The library holds two immutable word lists (animals, adjectives) in a
`GoofyAnimals` store, validated at construction, and generates names of the
form `adjective-adjective-animal` by drawing two distinct adjective indices
(rejection sampling) and one animal index from a caller-supplied randomness
source.

Embedding choices:
* A word list is a `List String`; a store is a structure of the two lists.
* The abstract randomness source (`rand::Rng`) is modelled as an infinite
  stream of naturals, `RngState := Nat → Nat`; `rng.gen_range(0..n)` consumes
  the next stream element reduced into `[0, n)` by `% n` and advances the
  stream by one.  Every sequence of in-range draws is realised by some stream.
* The Rust `loop` in `generate_name_parts` redraws until the two indices
  differ; it is embedded with explicit fuel (`drawDistinctPair`), returning
  `none` when the fuel runs out before a distinct pair appears.  Each loop
  iteration consumes exactly two stream elements.
* `new` panics on invalid input; it is embedded as returning `Option`.
-/

set_option autoImplicit false

/-- A word, as stored in the lists. -/
abbrev Word := String

/-- State of the abstract randomness source: an infinite stream of naturals. -/
abbrev RngState := Nat → Nat

/-- Advance the randomness source past `n` consumed draws. -/
def dropDraws (n : Nat) (s : RngState) : RngState := fun i => s (i + n)

/-- `rng.gen_range(0..n)`: draw the next stream element reduced into `[0, n)`,
returning the drawn index and the advanced source. -/
def genRange (n : Nat) (s : RngState) : Nat × RngState := (s 0 % n, dropDraws 1 s)

/-- The `GoofyAnimals` struct of `src/src/lib.rs`: the two word lists. -/
structure GoofyAnimals where
  animals : List Word
  adjectives : List Word
deriving DecidableEq, Repr

/-- `GoofyAnimals::new_unchecked`: store the two lists with no validity check. -/
def GoofyAnimals.new_unchecked (animals adjectives : List Word) : GoofyAnimals :=
  { animals := animals, adjectives := adjectives }

/-- `GoofyAnimals::new`: validate, then delegate to `new_unchecked`.  The Rust
code panics when the animal list is empty, the adjective list has fewer than
two entries, or the last entry of either list is the empty string; panics are
embedded as `none`. -/
def GoofyAnimals.new (animals adjectives : List Word) : Option GoofyAnimals :=
  if animals.length < 1 then none
  else if adjectives.length < 2 then none
  else if animals.getLast? = some "" then none
  else if adjectives.getLast? = some "" then none
  else some (GoofyAnimals.new_unchecked animals adjectives)

/-- `GoofyAnimals::get_animals`. -/
def GoofyAnimals.get_animals (g : GoofyAnimals) : List Word := g.animals

/-- `GoofyAnimals::get_adjectives`. -/
def GoofyAnimals.get_adjectives (g : GoofyAnimals) : List Word := g.adjectives

/-- The rejection-sampling `loop` of `GoofyAnimals::generate_name_parts`:
draw `one = rng.gen_range(0..k)` (consuming `s 0`) and
`two = rng.gen_range(0..k)` (consuming `s 1`); on `one == two` `continue`
with the source advanced past the two draws, otherwise `break (one, two)`.
`fuel` bounds the number of iterations; `none` means the fuel ran out. -/
def drawDistinctPair : Nat → Nat → RngState → Option ((Nat × Nat) × RngState)
  | 0, _, _ => none
  | fuel + 1, k, s =>
      if s 0 % k = s 1 % k then drawDistinctPair fuel k (dropDraws 2 s)
      else some ((s 0 % k, s 1 % k), dropDraws 2 s)

/-- One unfolding of `drawDistinctPair` phrased through `genRange`, recording
that each iteration is exactly two `gen_range` calls on the adjective count. -/
theorem drawDistinctPair_step (fuel k : Nat) (s : RngState) :
    drawDistinctPair (fuel + 1) k s =
      if (genRange k s).1 = (genRange k (genRange k s).2).1 then
        drawDistinctPair fuel k (genRange k (genRange k s).2).2
      else some (((genRange k s).1, (genRange k (genRange k s).2).1),
        (genRange k (genRange k s).2).2) := rfl

/-- `GoofyAnimals::generate_name_parts`: run the rejection-sampling loop on
`[0, adjectives.len())`, then draw one animal index uniformly in
`[0, animals.len())`, and return the indexed words in draw order. -/
def GoofyAnimals.generate_name_parts (g : GoofyAnimals) (fuel : Nat) (s : RngState) :
    Option ((Word × Word × Word) × RngState) :=
  match drawDistinctPair fuel g.adjectives.length s with
  | none => none
  | some (p, t) =>
      some ((g.adjectives.getD p.1 "", g.adjectives.getD p.2 "",
        g.animals.getD ((genRange g.animals.length t).1) ""),
        (genRange g.animals.length t).2)

/-- `GoofyAnimals::generate_name`: generate the parts, then join them as
`format!("{adjective_one}-{adjective_two}-{animal}")`. -/
def GoofyAnimals.generate_name (g : GoofyAnimals) (fuel : Nat) (s : RngState) :
    Option (String × RngState) :=
  match g.generate_name_parts fuel s with
  | none => none
  | some (w, t) => some (w.1 ++ "-" ++ w.2.1 ++ "-" ++ w.2.2, t)

/-- The construction invariants of the Word Store (spec §3): non-empty animal
list, at least two adjectives, no empty trailing entry in either list. -/
def Valid (g : GoofyAnimals) : Prop :=
  1 ≤ g.animals.length ∧ 2 ≤ g.adjectives.length ∧
    g.animals.getLast? ≠ some "" ∧ g.adjectives.getLast? ≠ some ""

instance (g : GoofyAnimals) : Decidable (Valid g) := by
  unfold Valid; exact inferInstance

/-- The pair of indices the loop body computes at its `i`-th iteration:
iteration `i` consumes stream elements `2*i` and `2*i + 1`. -/
def pairAt (k : Nat) (s : RngState) (i : Nat) : Nat × Nat :=
  (s (2 * i) % k, s (2 * i + 1) % k)

/-- A concrete deterministic randomness source used in witnesses. -/
def natStream : RngState := fun i => i

/-- A concrete valid store with duplicate adjective strings. -/
def dupStore : GoofyAnimals :=
  { animals := ["cat"], adjectives := ["fuzzy", "fuzzy"] }

/-- A concrete valid store with pairwise distinct words. -/
def plainStore : GoofyAnimals :=
  { animals := ["cat"], adjectives := ["fuzzy", "zany"] }

/-- Any successful run of the rejection-sampling loop returns two distinct
indices, both below the bound when the bound is positive. -/
theorem drawDistinctPair_sound (fuel k : Nat) (s : RngState) (p : Nat × Nat)
    (t : RngState) (h : drawDistinctPair fuel k s = some (p, t)) :
    p.1 ≠ p.2 ∧ (0 < k → p.1 < k ∧ p.2 < k) := by
  induction fuel generalizing s with
  | zero => simp [drawDistinctPair] at h
  | succ n ih =>
      rw [drawDistinctPair] at h
      split at h
      · exact ih _ h
      · rename_i hne
        obtain ⟨hp, -⟩ := Prod.mk.injEq .. ▸ Option.some.injEq .. ▸ h
        subst hp
        exact ⟨hne, fun hk => ⟨Nat.mod_lt _ hk, Nat.mod_lt _ hk⟩⟩

/-- Shifting the source by one loop iteration shifts the iteration index. -/
theorem pairAt_dropDraws (k : Nat) (s : RngState) (i : Nat) :
    pairAt k (dropDraws 2 s) i = pairAt k s (i + 1) := by
  have h1 : 2 * i + 2 = 2 * (i + 1) := by omega
  have h2 : 2 * i + 1 + 2 = 2 * (i + 1) + 1 := by omega
  simp only [pairAt, dropDraws]
  rw [h1, h2]

/-- Composing two advances of the source. -/
theorem dropDraws_dropDraws (m n : Nat) (s : RngState) :
    dropDraws m (dropDraws n s) = dropDraws (m + n) s := by
  funext i
  simp only [dropDraws]
  congr 1
  omega

/-- If the first `N` iterations of the loop all collide and iteration `N`
draws a distinct pair, then with more than `N` units of fuel the loop exits at
iteration `N`, returning that pair with the source advanced past `2*N + 2`
draws. -/
theorem drawDistinctPair_first_success (k : Nat) :
    ∀ (N : Nat) (s : RngState),
      (∀ i, i < N → (pairAt k s i).1 = (pairAt k s i).2) →
      (pairAt k s N).1 ≠ (pairAt k s N).2 →
      ∀ fuel, N < fuel →
        drawDistinctPair fuel k s = some (pairAt k s N, dropDraws (2 * N + 2) s) := by
  intro N
  induction N with
  | zero =>
      intro s _ hne fuel hfuel
      obtain ⟨m, rfl⟩ : ∃ m, fuel = m + 1 := ⟨fuel - 1, by omega⟩
      rw [drawDistinctPair]
      rw [if_neg (by simpa [pairAt] using hne)]
      simp [pairAt]
  | succ N ih =>
      intro s hcol hne fuel hfuel
      obtain ⟨m, rfl⟩ : ∃ m, fuel = m + 1 := ⟨fuel - 1, by omega⟩
      rw [drawDistinctPair]
      rw [if_pos (by simpa [pairAt] using hcol 0 (Nat.succ_pos N))]
      have hcol' : ∀ i, i < N → (pairAt k (dropDraws 2 s) i).1 = (pairAt k (dropDraws 2 s) i).2 := by
        intro i hi
        rw [pairAt_dropDraws]
        exact hcol (i + 1) (by omega)
      have hne' : (pairAt k (dropDraws 2 s) N).1 ≠ (pairAt k (dropDraws 2 s) N).2 := by
        rw [pairAt_dropDraws]
        exact hne
      rw [ih (dropDraws 2 s) hcol' hne' m (by omega)]
      rw [pairAt_dropDraws, dropDraws_dropDraws]
      have he : 2 * N + 2 + 2 = 2 * (N + 1) + 2 := by omega
      rw [he]

/-- C2: `new` fails exactly when the animal list is empty, the adjective list
has fewer than two entries, or the last entry of either list is the empty
string; on all other inputs it succeeds and the resulting store holds exactly
the supplied lists. -/
theorem new_fails_iff_invariant_violated (animals adjectives : List Word) :
    (GoofyAnimals.new animals adjectives = none ↔
      (animals.length = 0 ∨ adjectives.length < 2 ∨
        animals.getLast? = some "" ∨ adjectives.getLast? = some "")) ∧
    ∀ g, GoofyAnimals.new animals adjectives = some g →
      g.animals = animals ∧ g.adjectives = adjectives := by
  constructor
  · constructor
    · intro h
      unfold GoofyAnimals.new at h
      split_ifs at h with h1 h2 h3 h4
      · left; omega
      · right; left; exact h2
      · right; right; left; exact h3
      · right; right; right; exact h4
    · intro h
      unfold GoofyAnimals.new
      split_ifs with h1 h2 h3 h4
      · rfl
      · rfl
      · rfl
      · rfl
      · exfalso
        rcases h with h | h | h | h
        · omega
        · omega
        · exact h3 h
        · exact h4 h
  · intro g hg
    unfold GoofyAnimals.new at hg
    split_ifs at hg
    injection hg with hg
    subst hg
    exact ⟨rfl, rfl⟩

/-- C2 witness: the characterisation instantiated at a concrete valid input. -/
theorem new_fails_iff_invariant_violated_witness :
    (GoofyAnimals.new ["cat"] ["fuzzy", "zany"] = none ↔
      ((["cat"] : List Word).length = 0 ∨ (["fuzzy", "zany"] : List Word).length < 2 ∨
        (["cat"] : List Word).getLast? = some "" ∨
        (["fuzzy", "zany"] : List Word).getLast? = some "")) ∧
    ∀ g, GoofyAnimals.new ["cat"] ["fuzzy", "zany"] = some g →
      g.animals = ["cat"] ∧ g.adjectives = ["fuzzy", "zany"] :=
  new_fails_iff_invariant_violated ["cat"] ["fuzzy", "zany"]

/-- C9: when `new` succeeds its result is exactly `new_unchecked` on the same
lists; `new_unchecked` itself performs no validation, succeeds on every input
(it is a total function), and the getters return exactly the stored lists. -/
theorem new_agrees_with_new_unchecked (animals adjectives : List Word) :
    (∀ g, GoofyAnimals.new animals adjectives = some g →
        g = GoofyAnimals.new_unchecked animals adjectives) ∧
    (GoofyAnimals.new_unchecked animals adjectives).get_animals = animals ∧
    (GoofyAnimals.new_unchecked animals adjectives).get_adjectives = adjectives := by
  refine ⟨?_, rfl, rfl⟩
  intro g hg
  unfold GoofyAnimals.new at hg
  split_ifs at hg
  injection hg with hg
  exact hg.symm

/-- C9 witness: instantiated at an invalid input, on which `new_unchecked`
still succeeds and stores the lists unmodified. -/
theorem new_agrees_with_new_unchecked_witness :
    (∀ g, GoofyAnimals.new [] [""] = some g →
        g = GoofyAnimals.new_unchecked [] [""]) ∧
    (GoofyAnimals.new_unchecked [] [""]).get_animals = [] ∧
    (GoofyAnimals.new_unchecked [] [""]).get_adjectives = [""] :=
  new_agrees_with_new_unchecked [] [""]

/-- C10: validation looks only at the final entry of each list: an adjective
list with the empty string at a non-final position passes `new`, and that
empty entry is then returned as a word by `generate_name_parts`. -/
theorem new_accepts_nonfinal_empty_entry :
    GoofyAnimals.new ["cat"] ["", "zany"] =
      some (GoofyAnimals.new_unchecked ["cat"] ["", "zany"]) ∧
    ((GoofyAnimals.new_unchecked ["cat"] ["", "zany"]).generate_name_parts 1
        natStream).map (fun r => r.1) = some ("", "zany", "cat") :=
  ⟨by decide, by decide⟩

/-- C1 counterexample: a valid store whose adjective list repeats the string
"fuzzy" at two indices; the generator returns the pair ("fuzzy", "fuzzy"),
so the two returned adjective strings are equal. -/
theorem duplicate_adjective_strings_can_coincide :
    Valid dupStore ∧
      (dupStore.generate_name_parts 1 natStream).map (fun r => r.1) =
        some ("fuzzy", "fuzzy", "cat") :=
  ⟨by decide, by decide⟩

/-- C1 (amended): the two adjective indices drawn are always distinct, so the
two returned adjective strings differ whenever the adjective list contains no
duplicate entries. -/
theorem generate_name_parts_distinct_strings
    (g : GoofyAnimals) (fuel : Nat) (s : RngState)
    (hv : Valid g) (hnd : g.adjectives.Nodup)
    (a1 a2 an : Word) (t : RngState)
    (h : g.generate_name_parts fuel s = some ((a1, a2, an), t)) :
    a1 ≠ a2 := by
  unfold GoofyAnimals.generate_name_parts at h
  cases hdp : drawDistinctPair fuel g.adjectives.length s with
  | none => rw [hdp] at h; cases h
  | some r =>
      obtain ⟨p, u⟩ := r
      rw [hdp] at h
      simp only [Option.some.injEq, Prod.mk.injEq] at h
      obtain ⟨⟨ha1, ha2, -⟩, -⟩ := h
      have hk : 0 < g.adjectives.length := by
        have := hv.2.1
        omega
      obtain ⟨hne, hb⟩ := drawDistinctPair_sound fuel _ s p u hdp
      obtain ⟨hb1, hb2⟩ := hb hk
      subst ha1
      subst ha2
      rw [List.getD_eq_getElem _ _ hb1, List.getD_eq_getElem _ _ hb2]
      intro hEq
      exact hne ((List.Nodup.getElem_inj_iff hnd).mp hEq)

/-- C1 witness: a concrete duplicate-free store on which the amended theorem
yields distinct strings. -/
theorem generate_name_parts_distinct_strings_witness :
    ("fuzzy" : Word) ≠ "zany" :=
  generate_name_parts_distinct_strings plainStore 1 natStream (by decide) (by decide)
    "fuzzy" "zany" "cat" (genRange 1 (dropDraws 2 natStream)).2 rfl

/-- C3: every returned word is a member of its source list, the underlying
index draws are in range, and the triple reports the first adjective drawn
first, the second drawn second, and the animal third. -/
theorem generate_name_parts_members
    (g : GoofyAnimals) (fuel : Nat) (s : RngState) (hv : Valid g)
    (a1 a2 an : Word) (t : RngState)
    (h : g.generate_name_parts fuel s = some ((a1, a2, an), t)) :
    (a1 ∈ g.adjectives ∧ a2 ∈ g.adjectives ∧ an ∈ g.animals) ∧
    ∃ p u, drawDistinctPair fuel g.adjectives.length s = some (p, u) ∧
      p.1 < g.adjectives.length ∧ p.2 < g.adjectives.length ∧
      (genRange g.animals.length u).1 < g.animals.length ∧
      a1 = g.adjectives.getD p.1 "" ∧ a2 = g.adjectives.getD p.2 "" ∧
      an = g.animals.getD ((genRange g.animals.length u).1) "" := by
  unfold GoofyAnimals.generate_name_parts at h
  cases hdp : drawDistinctPair fuel g.adjectives.length s with
  | none => rw [hdp] at h; cases h
  | some r =>
      obtain ⟨p, u⟩ := r
      rw [hdp] at h
      simp only [Option.some.injEq, Prod.mk.injEq] at h
      obtain ⟨⟨ha1, ha2, han⟩, -⟩ := h
      have hk : 0 < g.adjectives.length := by
        have := hv.2.1
        omega
      have hm : 0 < g.animals.length := by
        have := hv.1
        omega
      obtain ⟨-, hb⟩ := drawDistinctPair_sound fuel _ s p u hdp
      obtain ⟨hb1, hb2⟩ := hb hk
      have hanb : (genRange g.animals.length u).1 < g.animals.length := by
        simp only [genRange]
        exact Nat.mod_lt _ hm
      refine ⟨⟨?_, ?_, ?_⟩, p, u, rfl, hb1, hb2, hanb, ha1.symm, ha2.symm, han.symm⟩
      · rw [← ha1, List.getD_eq_getElem _ _ hb1]
        exact List.getElem_mem _
      · rw [← ha2, List.getD_eq_getElem _ _ hb2]
        exact List.getElem_mem _
      · rw [← han, List.getD_eq_getElem _ _ hanb]
        exact List.getElem_mem _

/-- C3 witness: the membership theorem instantiated at a concrete store and
source. -/
theorem generate_name_parts_members_witness :
    (("fuzzy" : Word) ∈ plainStore.adjectives ∧ ("zany" : Word) ∈ plainStore.adjectives ∧
      ("cat" : Word) ∈ plainStore.animals) ∧
    ∃ p u, drawDistinctPair 1 plainStore.adjectives.length natStream = some (p, u) ∧
      p.1 < plainStore.adjectives.length ∧ p.2 < plainStore.adjectives.length ∧
      (genRange plainStore.animals.length u).1 < plainStore.animals.length ∧
      ("fuzzy" : Word) = plainStore.adjectives.getD p.1 "" ∧
      ("zany" : Word) = plainStore.adjectives.getD p.2 "" ∧
      ("cat" : Word) = plainStore.animals.getD ((genRange plainStore.animals.length u).1) "" :=
  generate_name_parts_members plainStore 1 natStream (by decide) "fuzzy" "zany" "cat"
    (genRange 1 (dropDraws 2 natStream)).2 rfl

/-- C5: `generate_name` returns exactly the three parts of the same draw
joined by single hyphens, with nothing else added. -/
theorem generate_name_eq_joined_parts
    (g : GoofyAnimals) (fuel : Nat) (s : RngState)
    (a1 a2 an : Word) (t : RngState)
    (h : g.generate_name_parts fuel s = some ((a1, a2, an), t)) :
    g.generate_name fuel s = some (a1 ++ "-" ++ a2 ++ "-" ++ an, t) := by
  unfold GoofyAnimals.generate_name
  rw [h]

/-- C5 witness: the joining theorem at a concrete store and source. -/
theorem generate_name_eq_joined_parts_witness :
    plainStore.generate_name 1 natStream =
      some (("fuzzy" : Word) ++ "-" ++ "zany" ++ "-" ++ "cat",
        (genRange 1 (dropDraws 2 natStream)).2) :=
  generate_name_eq_joined_parts plainStore 1 natStream "fuzzy" "zany" "cat"
    (genRange 1 (dropDraws 2 natStream)).2 rfl

/-- C6: generation is deterministic in the randomness source: identical
source states give identical results (both the words and the final source
state, which is part of the returned pair). -/
theorem generation_deterministic (g : GoofyAnimals) (fuel : Nat) (s1 s2 : RngState)
    (h : s1 = s2) :
    g.generate_name_parts fuel s1 = g.generate_name_parts fuel s2 ∧
      g.generate_name fuel s1 = g.generate_name fuel s2 := by
  subst h
  exact ⟨rfl, rfl⟩

/-- C6 witness: determinism at a concrete store and source. -/
theorem generation_deterministic_witness :
    plainStore.generate_name_parts 1 natStream = plainStore.generate_name_parts 1 natStream ∧
      plainStore.generate_name 1 natStream = plainStore.generate_name 1 natStream :=
  generation_deterministic plainStore 1 natStream natStream rfl

/-- C4: with at least two adjectives and a source that eventually yields a
draw-pair of differing indices, the rejection-sampling loop terminates: it
exits at the first differing pair, every earlier pair collides, both returned
indices lie in `[0, k)`, and any sufficient fuel yields that same exit. -/
theorem rejection_sampling_terminates (k : Nat) (s : RngState) (hk : 2 ≤ k)
    (h : ∃ i, (pairAt k s i).1 ≠ (pairAt k s i).2) :
    ∃ N, (∀ i, i < N → (pairAt k s i).1 = (pairAt k s i).2) ∧
      (pairAt k s N).1 ≠ (pairAt k s N).2 ∧
      (pairAt k s N).1 < k ∧ (pairAt k s N).2 < k ∧
      ∀ fuel, N < fuel →
        drawDistinctPair fuel k s = some (pairAt k s N, dropDraws (2 * N + 2) s) := by
  have hmin : ∀ i, i < Nat.find h → (pairAt k s i).1 = (pairAt k s i).2 := fun i hi =>
    not_not.mp (Nat.find_min h hi)
  refine ⟨Nat.find h, hmin, Nat.find_spec h, ?_, ?_,
    drawDistinctPair_first_success k (Nat.find h) s hmin (Nat.find_spec h)⟩
  · simp only [pairAt]
    exact Nat.mod_lt _ (by omega)
  · simp only [pairAt]
    exact Nat.mod_lt _ (by omega)

/-- C4 witness: termination at a concrete bound and source. -/
theorem rejection_sampling_terminates_witness :
    (2 ≤ 2 ∧ ∃ i, (pairAt 2 natStream i).1 ≠ (pairAt 2 natStream i).2) ∧
    ∃ N, (∀ i, i < N → (pairAt 2 natStream i).1 = (pairAt 2 natStream i).2) ∧
      (pairAt 2 natStream N).1 ≠ (pairAt 2 natStream N).2 ∧
      (pairAt 2 natStream N).1 < 2 ∧ (pairAt 2 natStream N).2 < 2 ∧
      ∀ fuel, N < fuel →
        drawDistinctPair fuel 2 natStream =
          some (pairAt 2 natStream N, dropDraws (2 * N + 2) natStream) :=
  ⟨⟨by decide, ⟨0, by decide⟩⟩,
    rejection_sampling_terminates 2 natStream (by decide) ⟨0, by decide⟩⟩

/-- Modelled from the spec: the bundled data file `src/data/en_animals.txt` is
not present under `src/`; the spec (§4.2, §8) records only that the default
animal list holds exactly 355 non-empty entries, so the entries themselves are
synthesized. -/
def en_animals : List Word := List.replicate 355 "animal"

/-- Modelled from the spec: the bundled data file `src/data/en_adjectives.txt`
is not present under `src/`; the spec (§4.2, §8) records only that the default
adjective list holds exactly 1300 non-empty entries, so the entries themselves
are synthesized. -/
def en_adjectives : List Word := List.replicate 1300 "adjective"

/-- `DEFAULT_GOOFY_ANIMALS`: the default store built from the bundled lists. -/
def DEFAULT_GOOFY_ANIMALS : GoofyAnimals :=
  GoofyAnimals.new_unchecked en_animals en_adjectives

/-- The last entry of each bundled list is a non-empty word. -/
theorem en_animals_getLast? : en_animals.getLast? = some "animal" := by
  show (List.replicate (354 + 1) "animal").getLast? = some "animal"
  rw [List.replicate_succ', List.getLast?_concat]

/-- The last entry of each bundled list is a non-empty word. -/
theorem en_adjectives_getLast? : en_adjectives.getLast? = some "adjective" := by
  show (List.replicate (1299 + 1) "adjective").getLast? = some "adjective"
  rw [List.replicate_succ', List.getLast?_concat]

/-- The validated constructor accepts the bundled lists and produces exactly
the default store, as the `const` evaluation of `new` does in the source. -/
theorem default_store_validated :
    GoofyAnimals.new en_animals en_adjectives = some DEFAULT_GOOFY_ANIMALS := by
  have h1 : en_animals.length = 355 := List.length_replicate ..
  have h2 : en_adjectives.length = 1300 := List.length_replicate ..
  unfold GoofyAnimals.new
  split_ifs with hc1 hc2 hc3 hc4
  · rw [h1] at hc1
    omega
  · rw [h2] at hc2
    omega
  · rw [en_animals_getLast?] at hc3
    simp at hc3
  · rw [en_adjectives_getLast?] at hc4
    simp at hc4
  · rfl

/-- C8: the default store holds exactly 355 animals and 1300 adjectives, as
observed through the getters. -/
theorem default_store_sizes :
    DEFAULT_GOOFY_ANIMALS.get_animals.length = 355 ∧
      DEFAULT_GOOFY_ANIMALS.get_adjectives.length = 1300 :=
  ⟨List.length_replicate .., List.length_replicate ..⟩
